import Mathlib

/-!
Verification development for the `puffsAnalysis` repository.

The repository has two source files. `mat2py.py` converts a MATLAB-v7.3
(HDF5-backed) struct of tracks into a numpy structured record array and saves
it as a `.npy` file; `puffapy.py` is the driver that derives field names,
invokes the conversion for training/testing inputs and hands the tables to a
random-forest classifier.

This file gives a shallow embedding of those two pieces:

* an HDF5 source is a `Source`: a missing path, a legacy (pre-v7.3) file —
  both of which make `h5py.File` raise `OSError` — or a modern container
  holding an optional `tracks` group (`f.get('tracks')` returns `None` when
  absent);
* a `TracksGroup` keeps, per field name, the reference dataset (one row of
  references per track, `element[0]` is used) together with the payload store
  that references resolve into (`gp1[element[0]][:]`);
* numeric payloads are lists of `Rat` (the code only marshals values, never
  computes with them, so an exact carrier is faithful);
* Python exceptions become the `PyErr` error type of an `Except` computation;
* the `np.array` / `np.hstack` / `np.squeeze` / `np.core.records.fromarrays`
  chain is modelled on row-lists, including the shape behaviour of `squeeze`
  (a length-one axis is dropped, which is what makes the single-field and the
  single-track cases degenerate) and the arity check of `fromarrays` (the
  number of arrays must equal the number of names, else `ValueError`);
* effects of a run (the saved file, printed warnings, open/close/save order)
  are recorded in a `MatResult`.
-/

/-- The kinds of Python exceptions that can surface in `mat2py` / `puffapy`.
`osError` covers `OSError` and its subclasses (notably `FileNotFoundError`). -/
inductive PyErr
  | osError
  | keyError
  | typeError
  | valueError
  | indexError
  | nameError
deriving DecidableEq

/-- Observable file-handle / filesystem events of one `mat2py` run, used to
state the temporal claim that the HDF5 handle is closed before `np.save`. -/
inductive Event
  | openFile
  | closeFile
  | save (path : String)
deriving DecidableEq

/-- The `tracks` group of a v7.3 MATLAB file: each field name maps to its
reference dataset — one row per track, each row a list of HDF5 object
references (the code uses `element[0]`) — and `payloadStore` is the resolver:
reference `r` points at the numeric payload `payloadStore[r]`, read by
`gp1[element[0]][:]`. -/
structure TracksGroup where
  fields : List (String × List (List Nat))
  payloadStore : List (List Rat)
deriving DecidableEq

/-- What `h5py.File(mfilepath, 'r')` finds at a path: no file at all, a
legacy (pre-v7.3) MATLAB file — both raise `OSError` — or a modern HDF5
container whose `tracks` group may or may not exist. -/
inductive Source
  | missing
  | legacy
  | modern (tracks : Option TracksGroup)

/-- A 2-D numeric array as a list of rows. -/
abbrev PyMat := List (List Rat)

/-- The value returned by `np.core.records.fromarrays`: either a 1-D record
array (`table names rows`, one record per row) or — when `np.squeeze`
collapsed the track axis because there was exactly one track — a 0-D record
array holding a single record. -/
inductive RecArray
  | table (names : List String) (rows : List (List Rat))
  | scalarRec (names : List String) (vals : List Rat)
deriving DecidableEq

/-- The column names of a record array (`x.dtype.names`). -/
def RecArray.names : RecArray → List String
  | .table ns _ => ns
  | .scalarRec ns _ => ns

/-- The observable outcome of a `mat2py` call that did not end in an uncaught
exception: the Python return value (`none` models Python's `None`), the files
written by `np.save`, the lines printed, and the handle/filesystem events in
program order. -/
structure MatResult where
  ret : Option RecArray
  saved : List (String × RecArray)
  printed : List String
  events : List Event
deriving DecidableEq

/-- `h5py.File(mfilepath, 'r')` followed by `f.get('tracks')`: a missing path
and a legacy-format file both raise `OSError`; a modern file yields the
optional `tracks` group. -/
def openFile (src : Source) : Except PyErr (Option TracksGroup) :=
  match src with
  | .missing => .error .osError
  | .legacy => .error .osError
  | .modern t => .ok t

/-- `gp1[p]`: look the field name up in the group; a missing name raises
`KeyError`. -/
def lookupField (g : TracksGroup) (p : String) : Except PyErr (List (List Nat)) :=
  match g.fields.find? (fun q => q.1 == p) with
  | some q => .ok q.2
  | none => .error .keyError

/-- `gp1[ref][:]`: resolve one object reference to its numeric payload; a
dangling reference fails. -/
def resolveRef (g : TracksGroup) (r : Nat) : Except PyErr (List Rat) :=
  match g.payloadStore[r]? with
  | some v => .ok v
  | none => .error .valueError

/-- `gp1[element[0]][:]` for one `element` of the reference dataset:
`element[0]` raises `IndexError` on an empty row, then the reference is
resolved. -/
def readRow (g : TracksGroup) (row : List Nat) : Except PyErr (List Rat) :=
  match row with
  | [] => .error .indexError
  | r :: _ => resolveRef g r

/-- The list comprehension `[gp1[element[0]][:] for element in gp1[p]]`,
iterating the rows of the reference dataset in track order. -/
def readRows (g : TracksGroup) : List (List Nat) → Except PyErr (List (List Rat))
  | [] => .ok []
  | row :: rest =>
    match readRow g row with
    | .error e => .error e
    | .ok v =>
      match readRows g rest with
      | .error e => .error e
      | .ok vs => .ok (v :: vs)

/-- `data = [gp1[element[0]][:] for element in gp1[p]]`; when `gp1` is `None`
(no `tracks` group), subscripting `None` raises `TypeError`. -/
def readField (gp1 : Option TracksGroup) (p : String) : Except PyErr PyMat :=
  match gp1 with
  | none => .error .typeError
  | some g =>
    match lookupField g p with
    | .error e => .error e
    | .ok refs => readRows g refs

/-- All rows have the same length (numpy only builds a regular numeric array
from a non-ragged nested list). -/
def uniformRows (data : PyMat) : Bool :=
  match data with
  | [] => true
  | d :: rest => rest.all (fun r => r.length == d.length)

/-- `np.array(data)`: a ragged list of per-track payloads does not form a
regular numeric array (numpy raises `ValueError`). -/
def npArray (data : PyMat) : Except PyErr PyMat :=
  if uniformRows data then .ok data else .error .valueError

/-- `np.hstack((arr, data))`: concatenation along axis 1 needs a regular
`data` and equal track counts; each track's row is extended by that track's
payload for the new field. -/
def npHstack (arr data : PyMat) : Except PyErr PyMat :=
  if uniformRows data ∧ arr.length = data.length then
    .ok (List.zipWith (fun a b => a ++ b) arr data)
  else .error .valueError

/-- One iteration of the loop body `if p == params[0]: arr = np.array(data)
else: arr = np.hstack((arr, data))`. The comparison is by value against the
first requested name, exactly as in the source; `acc = none` models the
variable `arr` not having been assigned yet (`NameError` on use). -/
def stackStep (p0 : String) (acc : Option PyMat) (p : String) (data : PyMat) :
    Except PyErr PyMat :=
  if p = p0 then npArray data
  else
    match acc with
    | some arr => npHstack arr data
    | none => .error .nameError

/-- The loop `for p in params`, reading each field's payloads and stacking
them into `arr`. -/
def buildLoop (gp1 : Option TracksGroup) (p0 : String) :
    Option PyMat → List String → Except PyErr (Option PyMat)
  | acc, [] => .ok acc
  | acc, p :: rest =>
    match readField gp1 p with
    | .error e => .error e
    | .ok data =>
      match stackStep p0 acc p data with
      | .error e => .error e
      | .ok arr => buildLoop gp1 p0 (some arr) rest

/-- The whole `for p in params` loop; with an empty `params` the loop body
never runs and `arr` stays unassigned. -/
def buildArr (gp1 : Option TracksGroup) (params : List String) :
    Except PyErr (Option PyMat) :=
  match params with
  | [] => .ok none
  | p0 :: _ => buildLoop gp1 p0 none params

/-- `np.core.records.fromarrays((np.squeeze(arr)).transpose(), names=...)`.
The stacked array has shape `(N, M, 1)` with `N` tracks and `M` the total
stacked width; `np.squeeze` drops every length-one axis, so:
* `N = 0`: `fromarrays` on an empty array list raises `IndexError`;
* `N = 1, M = 1`: squeeze yields a 0-D array, iterating it raises `TypeError`;
* `N = 1, M ≥ 2`: squeeze yields the single row, `fromarrays` sees `M` scalar
  arrays and builds a 0-D record when `M` equals the number of names;
* `N ≥ 2, M = 1`: squeeze yields one 1-D column of length `N`, `fromarrays`
  sees `N` scalar arrays against the given names;
* `N ≥ 2, M ≥ 2`: the transpose has `M` rows of length `N`; `fromarrays`
  requires `M` to equal the number of names (else
  `ValueError: mismatch between the number of fields and the number of
  arrays`) and returns an `N`-record table. -/
def squeezeFromarrays (names : List String) (arr : PyMat) : Except PyErr RecArray :=
  match arr with
  | [] => .error .indexError
  | [row] =>
    match row with
    | [] => .error .indexError
    | [_] => .error .typeError
    | _ =>
      if names.length = row.length then .ok (.scalarRec names row)
      else .error .valueError
  | r1 :: r2 :: more =>
    if r1.length = 1 then
      if names.length = (r1 :: r2 :: more).length then
        .ok (.scalarRec names ((r1 :: r2 :: more).map (fun r => r.headD 0)))
      else .error .valueError
    else if names.length = r1.length then .ok (.table names (r1 :: r2 :: more))
    else .error .valueError

/-- `os.path.basename`: everything after the last `/`. -/
def pyBasename (p : String) : String :=
  let cs := p.toList
  match (cs.reverse.findIdx? (fun c => c == '/')) with
  | none => p
  | some j => String.mk (cs.drop (cs.length - j))

/-- `str.endswith`. -/
def pyEndsWith (s post : String) : Bool :=
  let a := s.toList
  let b := post.toList
  decide (b.length ≤ a.length) && (a.drop (a.length - b.length) == b)

/-- `str.startswith`. -/
def pyStartsWith (s pre : String) : Bool :=
  (s.toList.take pre.toList.length) == pre.toList

/-- The root part of `os.path.splitext` on a bare file name (no `/`): the
name is cut at its last dot, except that a name whose characters before that
dot are all dots (such as `.bashrc`) keeps its dot. -/
def pySplitextRoot (b : String) : String :=
  let cs := b.toList
  match (cs.reverse.findIdx? (fun c => c == '.')) with
  | none => b
  | some j =>
    let i := cs.length - 1 - j
    if (cs.take i).all (fun c => c == '.') then b
    else String.mk (cs.take i)

/-- `os.path.join` for two components. -/
def pyJoin (d n : String) : String :=
  if pyStartsWith n "/" then n
  else if d = "" then n
  else if pyEndsWith d "/" then d ++ n
  else d ++ "/" ++ n

/-- `os.path.dirname`: the part before the last `/` (with Python's handling
of runs of slashes: a head that is all slashes is kept, otherwise trailing
slashes are stripped). -/
def pyDirname (p : String) : String :=
  let cs := p.toList
  match (cs.reverse.findIdx? (fun c => c == '/')) with
  | none => ""
  | some j =>
    let head := cs.take (cs.length - j)
    if head.all (fun c => c == '/') then String.mk head
    else String.mk (head.reverse.dropWhile (fun c => c == '/')).reverse

/-- `np.save` appends `.npy` to the target name unless it already ends with
it. -/
def npSaveTarget (path : String) : String :=
  if pyEndsWith path ".npy" then path else path ++ ".npy"

/-- The file written by
`np.save(op.join(savedir, op.splitext(op.basename(mfilepath))[0]), x)`. -/
def npSavePath (savedir mfilepath : String) : String :=
  npSaveTarget (pyJoin savedir (pySplitextRoot (pyBasename mfilepath)))

/-- The diagnostic printed by the `except OSError` handler. -/
def oldMatlabWarning : String := "Woops, old matlab format. This will fail."

/-- The body of the `try` block of `mat2py` up to building the record array:
open the file, fetch the `tracks` group, run the field loop, squeeze and
convert to a named record array. An empty `params` leaves `arr` unassigned,
so `np.squeeze(arr)` raises `NameError`. -/
def mat2pyBody (src : Source) (params : List String) : Except PyErr RecArray :=
  match openFile src with
  | .error e => .error e
  | .ok gp1 =>
    match buildArr gp1 params with
    | .error e => .error e
    | .ok none => .error .nameError
    | .ok (some arr) => squeezeFromarrays params arr

/-- `mat2py(mfilepath, params, savedir)`. On success the source handle is
closed (`f.close()`), the record array is saved with `np.save` and returned.
The `except OSError` handler catches exactly the `OSError` family — raised
here by `h5py.File` on a missing path or a legacy-format file — prints the
warning and returns `None`; every other exception propagates to the caller
(`.error e`). -/
def mat2py (src : Source) (mfilepath : String) (params : List String)
    (savedir : String) : Except PyErr MatResult :=
  match mat2pyBody src params with
  | .ok x =>
    .ok { ret := some x
          saved := [(npSavePath savedir mfilepath, x)]
          printed := []
          events := [Event.openFile, Event.closeFile,
                     Event.save (npSavePath savedir mfilepath)] }
  | .error .osError =>
    .ok { ret := none, saved := [], printed := [oldMatlabWarning], events := [] }
  | .error e => .error e

/-- The on-disk store of `.npy` files, as an association of path to saved
table. -/
abbrev FileStore := List (String × RecArray)

/-- Write one file: overwrite the entry at the path if present, append
otherwise. -/
def setFile : FileStore → String → RecArray → FileStore
  | [], p, x => [(p, x)]
  | q :: rest, p, x => if q.1 = p then (p, x) :: rest else q :: setFile rest p x

/-- Apply all saves of a run to the store in order. -/
def writeAll (fs : FileStore) (l : List (String × RecArray)) : FileStore :=
  l.foldl (fun acc pr => setFile acc pr.1 pr.2) fs

/-- One `mat2py` invocation acting on the local disk: the source file is
opened read-only and never modified, so only the destination store changes. -/
def runConversion (fs : FileStore) (src : Source) (mfp : String)
    (ps : List String) (sd : String) : FileStore × Except PyErr MatResult :=
  match mat2py src mfp ps sd with
  | .ok r => (writeAll fs r.saved, .ok r)
  | .error e => (fs, .error e)

/-- A record of one `mat2py` invocation by the driver: source path, field
list, destination directory. -/
abbrev MatCall := String × List String × String

/-- The driver's environment: what `np.load` returns for a `.npy` path, and
what `h5py` finds at a raw MATLAB path. -/
structure Env where
  loadNpy : String → RecArray
  matSource : String → Source

/-- The data the driver holds after its argument-handling prologue
(`puffapy.py` lines 17–39): the field names in use, the training and test
tables (`none` models Python's `None` from a legacy-format conversion), the
save directory, and the `mat2py` invocations made. -/
structure DriverOutcome where
  fields : List String
  train : Option RecArray
  test : Option RecArray
  savedir : String
  calls : List MatCall
deriving DecidableEq

/-- The testing half of the driver prologue (`puffapy.py` lines 31–39): with
no `--testing` argument, `test = np.array(train)` — an equal-content copy of
the training table — and the save directory stays the training-derived one;
with a `--testing` argument the test table is loaded or converted and the
save directory moves to the testing-derived `Classification` directory. -/
def afterTrain (env : Env) (fields : List String) (train : Option RecArray)
    (calls : List MatCall) (traindir : String) (testingArg : Option String) :
    List MatCall × Except PyErr DriverOutcome :=
  match testingArg with
  | none =>
    (calls, .ok { fields := fields, train := train, test := train,
                  savedir := traindir, calls := calls })
  | some t =>
    let testdir := pyJoin (pyDirname (pyDirname t)) "Classification"
    if pyEndsWith t ".npy" then
      (calls, .ok { fields := fields, train := train,
                    test := some (env.loadNpy t), savedir := testdir,
                    calls := calls })
    else
      match mat2py (env.matSource t) t fields testdir with
      | .error e => (calls ++ [(t, fields, testdir)], .error e)
      | .ok r =>
        (calls ++ [(t, fields, testdir)],
         .ok { fields := fields, train := train, test := r.ret,
               savedir := testdir, calls := calls ++ [(t, fields, testdir)] })

/-- The driver prologue of `puffapy.py` (lines 17–39). A `.npy` training file
is loaded and its field names are taken from the dtype; a raw MATLAB training
file requires at least two caller-supplied field names — otherwise
`ValueError` is raised before any conversion work — and is converted with
`mat2py`. The first component lists every `mat2py` invocation that happened,
also on the error paths. -/
def puffapyPrepare (env : Env) (trainingPath : String) (fieldsArg : List String)
    (testingArg : Option String) : List MatCall × Except PyErr DriverOutcome :=
  let traindir := pyJoin (pyDirname (pyDirname trainingPath)) "Classification"
  if pyEndsWith trainingPath ".npy" then
    let train := env.loadNpy trainingPath
    afterTrain env train.names (some train) [] traindir testingArg
  else if fieldsArg.length ≤ 1 then
    ([], .error .valueError)
  else
    match mat2py (env.matSource trainingPath) trainingPath fieldsArg traindir with
    | .error e => ([(trainingPath, fieldsArg, traindir)], .error e)
    | .ok r =>
      afterTrain env fieldsArg r.ret [(trainingPath, fieldsArg, traindir)]
        traindir testingArg

/-- One row of a reference dataset resolves to a single-element (scalar)
payload. -/
def scalarRowOk (g : TracksGroup) (row : List Nat) : Bool :=
  match row with
  | [] => false
  | r :: _ =>
    match g.payloadStore[r]? with
    | some [_] => true
    | _ => false

/-- Field `p` exists under `tracks`, has one reference row per each of the
`n` tracks, and every reference resolves to a scalar payload. -/
def scalarFieldOk (g : TracksGroup) (n : Nat) (p : String) : Bool :=
  match lookupField g p with
  | .error _ => false
  | .ok refs => refs.length == n && refs.all (scalarRowOk g)

/-- A concrete modern container with 3 tracks and scalar fields
`label = (0, 1, 0)`, `x = (1, 2, 3)`, `y = (4, 5, 6)` (the spec's scenario). -/
def g4 : TracksGroup :=
  { fields := [("label", [[0], [1], [2]]), ("x", [[3], [4], [5]]),
               ("y", [[6], [7], [8]])]
    payloadStore := [[0], [1], [0], [1], [2], [3], [4], [5], [6]] }

/-- The table the scenario container converts to. -/
def table4 : RecArray :=
  RecArray.table ["label", "x", "y"] [[0, 1, 4], [1, 2, 5], [0, 3, 6]]

/-- The full observable outcome of converting the scenario container. -/
def res4 : MatResult :=
  { ret := some table4
    saved := [("/dest/tracks.npy", table4)]
    printed := []
    events := [Event.openFile, Event.closeFile, Event.save "/dest/tracks.npy"] }

/-- A concrete modern container with 2 tracks and the single scalar field
`label`. -/
def g5 : TracksGroup :=
  { fields := [("label", [[0], [1]])], payloadStore := [[0], [1]] }

/-- A concrete modern container with 3 tracks and the single scalar field
`label` (for the single-field case of the shape claim). -/
def gC1 : TracksGroup :=
  { fields := [("label", [[0], [1], [2]])], payloadStore := [[1], [0], [1]] }

/-- A container with no field named `isPuff`. -/
def gEmpty : TracksGroup := { fields := [], payloadStore := [] }

/-- A concrete driver environment for evaluating the driver prologue. -/
def envC : Env :=
  { loadNpy := fun _ => RecArray.table ["label", "x"] [[0, 1]]
    matSource := fun _ => Source.missing }

/-- The driver outcome of loading a prebuilt `.npy` training table with no
testing input. -/
def outC : DriverOutcome :=
  { fields := ["label", "x"]
    train := some (RecArray.table ["label", "x"] [[0, 1]])
    test := some (RecArray.table ["label", "x"] [[0, 1]])
    savedir := "data/Classification"
    calls := [] }

deriving instance DecidableEq for Except

/-- Rows of a common width form a regular array. -/
theorem uniformRows_of_width (w : Nat) (data : PyMat)
    (h : ∀ d ∈ data, d.length = w) : uniformRows data = true := by
  cases data with
  | nil => rfl
  | cons d rest =>
    simp only [uniformRows, List.all_eq_true]
    intro r hr
    have h1 : d.length = w := h d (List.mem_cons_self _ _)
    have h2 : r.length = w := h r (List.mem_cons_of_mem _ hr)
    simp [h1, h2]

/-- Stacking width-1 payloads onto width-`w` rows yields width-`w + 1` rows. -/
theorem zipWith_append_width (w : Nat) :
    ∀ (arr data : PyMat), (∀ r ∈ arr, r.length = w) → (∀ d ∈ data, d.length = 1) →
      ∀ r ∈ List.zipWith (fun a b => a ++ b) arr data, r.length = w + 1 := by
  intro arr
  induction arr with
  | nil => intro data _ _ r hr; simp at hr
  | cons a arr ih =>
    intro data ha hd r hr
    cases data with
    | nil => simp at hr
    | cons b data =>
      rw [List.zipWith_cons_cons, List.mem_cons] at hr
      rcases hr with rfl | hr
      · rw [List.length_append, ha a (List.mem_cons_self _ _),
            hd b (List.mem_cons_self _ _)]
      · exact ih data (fun r hr => ha r (List.mem_cons_of_mem _ hr))
          (fun d hd2 => hd d (List.mem_cons_of_mem _ hd2)) r hr

/-- Reading the rows of a reference dataset whose references all resolve to
scalar payloads succeeds and yields one width-1 payload per row. -/
theorem readRows_scalar (g : TracksGroup) :
    ∀ refs : List (List Nat), (∀ row ∈ refs, scalarRowOk g row = true) →
      ∃ data, readRows g refs = .ok data ∧ data.length = refs.length ∧
        ∀ d ∈ data, d.length = 1 := by
  intro refs
  induction refs with
  | nil => intro _; exact ⟨[], rfl, rfl, by simp⟩
  | cons row rs ih =>
    intro h
    have hrow := h row (List.mem_cons_self _ _)
    obtain ⟨data, hdr, hdl, hdw⟩ := ih (fun r hr => h r (List.mem_cons_of_mem _ hr))
    cases row with
    | nil => simp [scalarRowOk] at hrow
    | cons r rtail =>
      cases hst : g.payloadStore[r]? with
      | none => simp [scalarRowOk, hst] at hrow
      | some v =>
        match v with
        | [] => simp [scalarRowOk, hst] at hrow
        | x :: y :: t => simp [scalarRowOk, hst] at hrow
        | [x] =>
          refine ⟨[x] :: data, ?_, by simp [hdl], ?_⟩
          · simp [readRows, readRow, resolveRef, hst, hdr]
          · intro d hd
            rcases List.mem_cons.mp hd with rfl | hd
            · rfl
            · exact hdw d hd

/-- Reading a field that `scalarFieldOk` approves succeeds, giving one scalar
payload per track. -/
theorem readField_scalar {g : TracksGroup} {n : Nat} {p : String}
    (h : scalarFieldOk g n p = true) :
    ∃ data, readField (some g) p = .ok data ∧ data.length = n ∧
      ∀ d ∈ data, d.length = 1 := by
  unfold scalarFieldOk at h
  cases hlf : lookupField g p with
  | error e => rw [hlf] at h; simp at h
  | ok refs =>
    rw [hlf] at h
    simp only [Bool.and_eq_true, beq_iff_eq, List.all_eq_true] at h
    obtain ⟨hlen, hall⟩ := h
    obtain ⟨data, hdr, hdl, hdw⟩ := readRows_scalar g refs hall
    refine ⟨data, ?_, by omega, hdw⟩
    simp [readField, hlf, hdr]

/-- Loop invariant for `for p in params` after the first field: stacking the
remaining fields — all distinct from the first name and all scalar over `n`
tracks — onto an `n × w` array succeeds and widens each row by one per
field. -/
theorem buildLoop_scalar (g : TracksGroup) (p0 : String) (n : Nat) :
    ∀ (rest : List String) (w : Nat) (arr : PyMat),
      (∀ p ∈ rest, p ≠ p0 ∧ scalarFieldOk g n p = true) →
      arr.length = n → (∀ row ∈ arr, row.length = w) →
      ∃ arr2, buildLoop (some g) p0 (some arr) rest = .ok (some arr2) ∧
        arr2.length = n ∧ ∀ row ∈ arr2, row.length = w + rest.length := by
  intro rest
  induction rest with
  | nil =>
    intro w arr _ hlen hw
    exact ⟨arr, rfl, hlen, by simpa using hw⟩
  | cons p rest ih =>
    intro w arr hp hlen hw
    obtain ⟨hne, hok⟩ := hp p (List.mem_cons_self _ _)
    obtain ⟨data, hdata, hdlen, hdw⟩ := readField_scalar hok
    have hu : uniformRows data = true := uniformRows_of_width 1 data hdw
    have hagree : arr.length = data.length := by omega
    have hstack : stackStep p0 (some arr) p data =
        .ok (List.zipWith (fun a b => a ++ b) arr data) := by
      simp [stackStep, hne, npHstack, hu, hagree]
    have hzlen : (List.zipWith (fun a b : List Rat => a ++ b) arr data).length = n := by
      rw [List.length_zipWith]; omega
    obtain ⟨arr2, hloop, hlen2, hw2⟩ :=
      ih (w + 1) (List.zipWith (fun a b => a ++ b) arr data)
        (fun q hq => hp q (List.mem_cons_of_mem _ hq)) hzlen
        (zipWith_append_width w arr data hw hdw)
    refine ⟨arr2, ?_, hlen2, ?_⟩
    · simp only [buildLoop]
      rw [hdata]
      simp only [hstack]
      exact hloop
    · intro row hrow
      rw [hw2 row hrow, List.length_cons]
      omega

/-- With at least two requested fields the body succeeds: the stacked array
is regular with one row per track and one column per field, and
`fromarrays` turns it into the named table. -/
theorem mat2pyBody_table (g : TracksGroup) (p0 : String) (rest : List String)
    (n : Nat) (hn : 2 ≤ n) (hrest : rest ≠ [])
    (h0 : scalarFieldOk g n p0 = true)
    (hr : ∀ p ∈ rest, p ≠ p0 ∧ scalarFieldOk g n p = true) :
    ∃ rows, mat2pyBody (.modern (some g)) (p0 :: rest) =
        .ok (RecArray.table (p0 :: rest) rows) ∧
      rows.length = n ∧ ∀ row ∈ rows, row.length = (p0 :: rest).length := by
  obtain ⟨data0, hd0, hd0len, hd0w⟩ := readField_scalar h0
  have hu0 : uniformRows data0 = true := uniformRows_of_width 1 data0 hd0w
  obtain ⟨arr2, hloop, hlen2, hw2⟩ :=
    buildLoop_scalar g p0 n rest 1 data0 hr (by omega) hd0w
  have hstep0 : buildLoop (some g) p0 none (p0 :: rest) =
      buildLoop (some g) p0 (some data0) rest := by
    simp only [buildLoop]
    rw [hd0]
    simp [stackStep, npArray, hu0]
  have hbody : mat2pyBody (.modern (some g)) (p0 :: rest) =
      squeezeFromarrays (p0 :: rest) arr2 := by
    simp only [mat2pyBody, openFile, buildArr]
    rw [hstep0, hloop]
  obtain ⟨a, b, more, harr⟩ : ∃ a b more, arr2 = a :: b :: more := by
    match arr2, hlen2 with
    | [], hlen2 => simp at hlen2; omega
    | [a], hlen2 => simp at hlen2; omega
    | a :: b :: more, _ => exact ⟨a, b, more, rfl⟩
  have hrl : 1 ≤ rest.length := by
    cases rest with
    | nil => exact absurd rfl hrest
    | cons q qs => simp
  have ha : a.length = 1 + rest.length := hw2 a (by rw [harr]; exact List.mem_cons_self _ _)
  have hsq : squeezeFromarrays (p0 :: rest) arr2 = .ok (RecArray.table (p0 :: rest) arr2) := by
    rw [harr]
    simp only [squeezeFromarrays]
    rw [if_neg (by omega),
        if_pos (by simp only [List.length_cons, ha]; omega)]
  refine ⟨arr2, ?_, hlen2, ?_⟩
  · rw [hbody, hsq]
  · intro row hrow
    rw [hw2 row hrow, List.length_cons]
    omega

/-- Claim C1 (amended core): converting a modern container whose requested
fields are all present with scalar payloads — at least two fields, none of
the later ones equal to the first, and at least two tracks — returns a table
with exactly `n` rows and columns named and ordered as requested (column 0 is
the first, label, field), and its successful result also saves that table. -/
theorem mat2py_table_shape (g : TracksGroup) (mfp sd p0 : String)
    (rest : List String) (n : Nat) (hn : 2 ≤ n) (hrest : rest ≠ [])
    (h0 : scalarFieldOk g n p0 = true)
    (hr : ∀ p ∈ rest, p ≠ p0 ∧ scalarFieldOk g n p = true) :
    ∃ rows r, mat2py (.modern (some g)) mfp (p0 :: rest) sd = .ok r ∧
      r.ret = some (RecArray.table (p0 :: rest) rows) ∧
      rows.length = n ∧ ∀ row ∈ rows, row.length = (p0 :: rest).length := by
  obtain ⟨rows, hbody, hlen, hwidth⟩ := mat2pyBody_table g p0 rest n hn hrest h0 hr
  refine ⟨rows,
    { ret := some (RecArray.table (p0 :: rest) rows)
      saved := [(npSavePath sd mfp, RecArray.table (p0 :: rest) rows)]
      printed := []
      events := [Event.openFile, Event.closeFile,
                 Event.save (npSavePath sd mfp)] }, ?_, rfl, hlen, hwidth⟩
  simp only [mat2py]
  rw [hbody]

/-- Claim C5 (amended core): requesting a single field from a valid modern
container with at least two tracks does not produce a one-column table; the
`np.squeeze` of the `(n, 1, 1)` stacked array is one-dimensional, so
`fromarrays` sees `n` scalar arrays against one name and raises
`ValueError`, which `mat2py` does not catch. -/
theorem mat2py_single_field_raises (g : TracksGroup) (mfp sd p0 : String)
    (n : Nat) (hn : 2 ≤ n) (h0 : scalarFieldOk g n p0 = true) :
    mat2py (.modern (some g)) mfp [p0] sd = .error .valueError := by
  obtain ⟨data0, hd0, hd0len, hd0w⟩ := readField_scalar h0
  have hu0 : uniformRows data0 = true := uniformRows_of_width 1 data0 hd0w
  have hbody : mat2pyBody (.modern (some g)) [p0] =
      squeezeFromarrays [p0] data0 := by
    simp only [mat2pyBody, openFile, buildArr, buildLoop]
    rw [hd0]
    simp [stackStep, npArray, hu0]
  obtain ⟨a, b, more, harr⟩ : ∃ a b more, data0 = a :: b :: more := by
    match data0, hd0len with
    | [], hd0len => simp at hd0len; omega
    | [a], hd0len => simp at hd0len; omega
    | a :: b :: more, _ => exact ⟨a, b, more, rfl⟩
  have ha : a.length = 1 := hd0w a (by rw [harr]; exact List.mem_cons_self _ _)
  have hmore : (2 : Nat) + more.length = n := by
    rw [harr] at hd0len; simp at hd0len; omega
  have hsq : squeezeFromarrays [p0] data0 = .error .valueError := by
    rw [harr]
    simp only [squeezeFromarrays]
    rw [if_pos ha, if_neg (by simp only [List.length_cons, List.length_nil]; omega)]
  simp only [mat2py]
  rw [hbody, hsq]

/-- C1 witness: the shape theorem applied to the 3-track scenario container
with fields `["label", "x", "y"]`. -/
theorem mat2py_table_shape_witness :
    ∃ rows r,
      mat2py (.modern (some g4)) "tracks.mat" ("label" :: ["x", "y"]) "/dest" = .ok r ∧
      r.ret = some (RecArray.table ("label" :: ["x", "y"]) rows) ∧
      rows.length = 3 ∧ ∀ row ∈ rows, row.length = ("label" :: ["x", "y"]).length :=
  mat2py_table_shape g4 "tracks.mat" "/dest" "label" ["x", "y"] 3
    (by decide) (by decide) (by decide) (by decide)

/-- C1 counterexample: a modern container exposing `tracks` with the
requested field `label` present — a valid input in the claim's sense, with 3
tracks — on which `mat2py` raises an uncaught `ValueError` instead of
returning a 3-row table, because the claim's validity conditions also admit
a single-field request. -/
theorem mat2py_table_shape_cex :
    lookupField gC1 "label" = .ok [[0], [1], [2]] ∧
    mat2py (.modern (some gC1)) "cells.mat" ["label"] "/out" = .error .valueError := by
  constructor
  · rfl
  · rfl

/-- C5 witness: the single-field theorem applied to a 2-track container. -/
theorem mat2py_single_field_raises_witness :
    mat2py (.modern (some g5)) "exp2.mat" ["label"] "/res" = .error .valueError :=
  mat2py_single_field_raises g5 "exp2.mat" "/res" "label" 2 (by decide) (by decide)

/-- C5 counterexample: a valid 2-track source with the single field `label`
present and scalar — no precondition of the claim is violated — yet the
conversion crashes with `ValueError` rather than producing a one-column
table. -/
theorem mat2py_single_field_cex :
    scalarFieldOk g5 2 "label" = true ∧
    mat2py (.modern (some g5)) "exp.mat" ["label"] "/res" = .error .valueError := by
  constructor
  · rfl
  · rfl

/-- C3: a legacy-format source makes `h5py.File` raise `OSError`, which the
handler catches: the warning is printed, `None` is returned instead of the
exception propagating, and nothing is saved to the destination directory. -/
theorem mat2py_legacy_graceful (mfp sd : String) (ps : List String) :
    mat2py .legacy mfp ps sd =
      .ok { ret := none, saved := [], printed := [oldMatlabWarning],
            events := [] } := rfl

/-- C4: the spec's concrete scenario — 3 tracks, fields
`["label", "x", "y"]` with per-track payloads `label = (0, 1, 0)`,
`x = (1, 2, 3)`, `y = (4, 5, 6)` — converts to the 3-row table with those
named columns in order and rows `(0, 1, 4)`, `(1, 2, 5)`, `(0, 3, 6)`. -/
theorem mat2py_three_track_scenario :
    mat2py (.modern (some g4)) "tracks.mat" ["label", "x", "y"] "/dest" =
      .ok res4 := by
  decide

/-- C2 (amended): the `except OSError` handler catches the whole `OSError`
family — a nonexistent/unopenable path exactly like the legacy format — and
converts it into the printed warning and a `None` result; only failures that
are not `OSError`s propagate uncaught: a missing requested field raises
`KeyError` and a missing `tracks` group raises `TypeError`. -/
theorem mat2py_error_policy (mfp sd : String) (g : TracksGroup) (p : String)
    (rest : List String)
    (hmiss : g.fields.find? (fun q => q.1 == p) = none) :
    mat2py .missing mfp (p :: rest) sd =
      .ok { ret := none, saved := [], printed := [oldMatlabWarning], events := [] } ∧
    mat2py (.modern (some g)) mfp (p :: rest) sd = .error .keyError ∧
    mat2py (.modern none) mfp (p :: rest) sd = .error .typeError := by
  refine ⟨rfl, ?_, rfl⟩
  simp [mat2py, mat2pyBody, openFile, buildArr, buildLoop, readField,
        lookupField, hmiss]

/-- C2 witness: the error-policy theorem at a container that lacks the
requested field `isPuff`. -/
theorem mat2py_error_policy_witness :
    mat2py .missing "a.mat" ("isPuff" :: []) "/o" =
      .ok { ret := none, saved := [], printed := [oldMatlabWarning], events := [] } ∧
    mat2py (.modern (some gEmpty)) "a.mat" ("isPuff" :: []) "/o" = .error .keyError ∧
    mat2py (.modern none) "a.mat" ("isPuff" :: []) "/o" = .error .typeError :=
  mat2py_error_policy "a.mat" "/o" gEmpty "isPuff" [] (by decide)

/-- C2 counterexample: a nonexistent source path does not propagate as an
uncaught exception — `h5py.File` raises `FileNotFoundError`, a subclass of
`OSError`, so the handler written for the legacy format catches it, prints
the legacy warning and returns `None`. -/
theorem mat2py_bad_path_caught :
    mat2py .missing "ghost.mat" ["label"] "/out" =
      .ok { ret := none, saved := [], printed := [oldMatlabWarning],
            events := [] } := rfl

/-- C7: in every run of `mat2py` that returns a table, the events happen in
program order — open, then `f.close()`, then `np.save` — so the read-only
handle on the source container is closed strictly before the output file is
written. -/
theorem mat2py_close_precedes_save (src : Source) (mfp sd : String)
    (ps : List String) (r : MatResult) (x : RecArray)
    (hok : mat2py src mfp ps sd = .ok r) (hret : r.ret = some x) :
    r.events = [Event.openFile, Event.closeFile,
                Event.save (npSavePath sd mfp)] ∧
    ∃ i j : Nat, i < j ∧ r.events[i]? = some Event.closeFile ∧
      r.events[j]? = some (Event.save (npSavePath sd mfp)) := by
  unfold mat2py at hok
  cases hb : mat2pyBody src ps with
  | ok y =>
    rw [hb] at hok
    simp only [Except.ok.injEq] at hok
    subst hok
    exact ⟨rfl, 1, 2, by omega, rfl, rfl⟩
  | error e =>
    rw [hb] at hok
    cases e with
    | osError =>
      simp only [Except.ok.injEq] at hok
      subst hok
      simp at hret
    | keyError => simp at hok
    | typeError => simp at hok
    | valueError => simp at hok
    | indexError => simp at hok
    | nameError => simp at hok

/-- C7 witness: the ordering theorem applied to the successful scenario
conversion. -/
theorem mat2py_close_precedes_save_witness :
    res4.events = [Event.openFile, Event.closeFile,
                   Event.save (npSavePath "/dest" "tracks.mat")] ∧
    ∃ i j : Nat, i < j ∧ res4.events[i]? = some Event.closeFile ∧
      res4.events[j]? = some (Event.save (npSavePath "/dest" "tracks.mat")) :=
  mat2py_close_precedes_save (.modern (some g4)) "tracks.mat" "/dest"
    ["label", "x", "y"] res4 table4 (by decide) (by decide)

/-- C8: every successful conversion writes exactly one file, placed in the
caller-supplied destination directory, whose name is the source file's base
name with its extension stripped and `.npy` appended — a function of the
source file name alone, independent of the destination path (the side
condition rules out the corner where the stripped base name itself already
ends in `.npy`, in which case `np.save` would not append again). -/
theorem mat2py_save_location (src : Source) (mfp sd : String)
    (ps : List String) (r : MatResult) (x : RecArray)
    (hok : mat2py src mfp ps sd = .ok r) (hret : r.ret = some x)
    (hnpy : pyEndsWith (pyJoin sd (pySplitextRoot (pyBasename mfp))) ".npy" = false) :
    r.saved = [(pyJoin sd (pySplitextRoot (pyBasename mfp)) ++ ".npy", x)] := by
  unfold mat2py at hok
  cases hb : mat2pyBody src ps with
  | ok y =>
    rw [hb] at hok
    simp only [Except.ok.injEq] at hok
    subst hok
    simp only [MatResult.ret, Option.some.injEq] at hret
    subst hret
    simp [npSavePath, npSaveTarget, hnpy]
  | error e =>
    rw [hb] at hok
    cases e with
    | osError =>
      simp only [Except.ok.injEq] at hok
      subst hok
      simp at hret
    | keyError => simp at hok
    | typeError => simp at hok
    | valueError => simp at hok
    | indexError => simp at hok
    | nameError => simp at hok

/-- C8 witness: the save-location theorem at the scenario conversion with a
nested destination directory. -/
theorem mat2py_save_location_witness :
    res4.saved =
      [(pyJoin "/dest" (pySplitextRoot (pyBasename "tracks.mat")) ++ ".npy", table4)] :=
  mat2py_save_location (.modern (some g4)) "tracks.mat" "/dest"
    ["label", "x", "y"] res4 table4 (by decide) (by decide) (by decide)

/-- Overwriting a path with the value it already holds changes nothing. -/
theorem setFile_idem (fs : FileStore) (p : String) (x : RecArray) :
    setFile (setFile fs p x) p x = setFile fs p x := by
  induction fs with
  | nil => simp [setFile]
  | cons q rest ih =>
    by_cases h : q.1 = p
    · simp [setFile, h]
    · simp [setFile, h, ih]

/-- A `mat2py` run that does not raise saves either nothing (the caught
legacy path) or exactly one file. -/
theorem mat2py_saved_shape (src : Source) (mfp sd : String) (ps : List String)
    (r : MatResult) (h : mat2py src mfp ps sd = .ok r) :
    r.saved = [] ∨ ∃ p x, r.saved = [(p, x)] := by
  unfold mat2py at h
  cases hb : mat2pyBody src ps with
  | ok y =>
    rw [hb] at h
    simp only [Except.ok.injEq] at h
    subst h
    exact Or.inr ⟨npSavePath sd mfp, y, rfl⟩
  | error e =>
    rw [hb] at h
    cases e with
    | osError =>
      simp only [Except.ok.injEq] at h
      subst h
      exact Or.inl rfl
    | keyError => simp at h
    | typeError => simp at h
    | valueError => simp at h
    | indexError => simp at h
    | nameError => simp at h

/-- C9: the conversion is deterministic and idempotent — rerunning it on the
same source file, field list and destination directory returns the same
result and leaves the file store exactly as after the first run, so the
output file content is identical on both runs. -/
theorem runConversion_idempotent (fs : FileStore) (src : Source)
    (mfp sd : String) (ps : List String) :
    (runConversion (runConversion fs src mfp ps sd).1 src mfp ps sd).2 =
      (runConversion fs src mfp ps sd).2 ∧
    (runConversion (runConversion fs src mfp ps sd).1 src mfp ps sd).1 =
      (runConversion fs src mfp ps sd).1 := by
  cases h : mat2py src mfp ps sd with
  | error e => simp [runConversion, h]
  | ok r =>
    rcases mat2py_saved_shape src mfp sd ps r h with hs | ⟨p, x, hs⟩
    · simp [runConversion, h, writeAll, hs]
    · simp [runConversion, h, writeAll, hs, List.foldl, setFile_idem]

/-- C6: when the training input is a raw (non-`.npy`) file so that field
names must come from the caller, supplying fewer than two names makes the
driver raise `ValueError` immediately: `mat2py` is never invoked (the call
list is empty). -/
theorem puffapy_rejects_few_fields (env : Env) (tp : String)
    (fa : List String) (ta : Option String)
    (hraw : pyEndsWith tp ".npy" = false) (hfew : fa.length ≤ 1) :
    puffapyPrepare env tp fa ta = ([], .error .valueError) := by
  simp [puffapyPrepare, hraw, hfew]

/-- C6 witness: a raw `.mat` training path with a single field name is
rejected before any conversion. -/
theorem puffapy_rejects_few_fields_witness :
    puffapyPrepare envC "train.mat" ["label"] none = ([], .error .valueError) :=
  puffapy_rejects_few_fields envC "train.mat" ["label"] none (by decide) (by decide)

/-- C10: whenever the driver prologue completes with no `--testing` input,
the test table is the training table (`test = np.array(train)` is an
equal-content copy) and the save directory is the training-derived
`Classification` directory. -/
theorem puffapy_no_testing_copies_train (env : Env) (tp : String)
    (fa : List String) (calls : List MatCall) (out : DriverOutcome)
    (h : puffapyPrepare env tp fa none = (calls, .ok out)) :
    out.test = out.train ∧
    out.savedir = pyJoin (pyDirname (pyDirname tp)) "Classification" := by
  simp only [puffapyPrepare, afterTrain] at h
  by_cases hnpy : pyEndsWith tp ".npy" = true
  · rw [if_pos hnpy] at h
    simp only [Prod.mk.injEq, Except.ok.injEq] at h
    obtain ⟨-, h2⟩ := h
    subst h2
    exact ⟨rfl, rfl⟩
  · rw [if_neg hnpy] at h
    by_cases hfew : fa.length ≤ 1
    · rw [if_pos hfew] at h
      simp at h
    · rw [if_neg hfew] at h
      cases hm : mat2py (env.matSource tp) tp fa
          (pyJoin (pyDirname (pyDirname tp)) "Classification") with
      | error e => rw [hm] at h; simp at h
      | ok r =>
        rw [hm] at h
        simp only [Prod.mk.injEq, Except.ok.injEq] at h
        obtain ⟨-, h2⟩ := h
        subst h2
        exact ⟨rfl, rfl⟩

/-- C10 witness: loading a prebuilt training table with no testing input
yields a test table equal to the training table and keeps the
training-derived save directory. -/
theorem puffapy_no_testing_copies_train_witness :
    outC.test = outC.train ∧
    outC.savedir =
      pyJoin (pyDirname (pyDirname "data/cells/train.npy")) "Classification" :=
  puffapy_no_testing_copies_train envC "data/cells/train.npy" [] [] outC (by decide)
